import Mathlib

/-!
Verification of `find_unique_kmers.py` (trio_binning).

The file embeds the pure logic of the script in Lean: the histogram scan of
`analyze_histogram` (source lines 135-170), its error and file-cleanup
behaviour, the `run_kmc` process wrapper with its try/except/finally control
flow (lines 77-105), the line-counting loop of `run_kmc_dump` (lines 225-229)
and the per-library bound selection of `main` (lines 253-261).  Machine
integers of the script are modelled as `Int`; Python truthiness of the
`min_coverage`/`max_coverage` variables (initialised to `False`, with `False`
and `0` both falsy) is modelled by using `0` as the not-yet-found sentinel,
which is observationally faithful because `False == 0` in Python and the two
variables are only ever tested for truthiness or returned when non-zero.
-/

/-- Embeds the `HistogramError` exception class (source lines 16-22): the
exception carries a message built from the histogram-generation command. -/
structure HistogramError where
  message : String
deriving Repr, DecidableEq

/-- The message `HistogramError.__init__` builds from `histo_cmd`
(source lines 18-22). -/
def histogramErrorMessage (histo_cmd : String) : String :=
  "Could not find min and max counts in histogram. "
    ++ "Try running the following command yourself and manually "
    ++ "choosing cutoffs: " ++ histo_cmd

/-- State of the histogram scan loop of `analyze_histogram`
(source lines 135-155): `min_coverage` and `max_coverage` start as the falsy
`False` (modelled `0`); `min_coverage_count` is assigned before it is ever
read (the initial value `0` is never consulted); `last_count` starts at `-1`. -/
structure ScanState where
  min_coverage : Int
  max_coverage : Int
  min_coverage_count : Int
  last_count : Int
deriving Repr, DecidableEq

/-- Initial state of the scan: `min_coverage, max_coverage = False, False`
(modelled as `0`), `last_count = -1` (source lines 135-136). -/
def initScanState : ScanState :=
  { min_coverage := 0, max_coverage := 0, min_coverage_count := 0, last_count := -1 }

/-- One iteration of the `for line in open(temp_histogram_path)` loop of
`analyze_histogram` (source lines 137-155).  Returns the updated state and
whether the iteration executed `break`.  `if coverage != 2` guards the two
phase tests; `not min_coverage` / `not max_coverage` are truthiness tests,
i.e. comparisons against `0`; `last_count = count` runs at the end of every
iteration that does not break. -/
def scanStep (s : ScanState) (coverage count : Int) : ScanState × Bool :=
  if coverage ≠ 2 then
    if s.min_coverage = 0 then
      if count > s.last_count then
        ({ s with min_coverage := coverage - 1,
                  min_coverage_count := s.last_count,
                  last_count := count }, false)
      else
        ({ s with last_count := count }, false)
    else if s.max_coverage = 0 then
      if count < s.min_coverage_count then
        ({ s with max_coverage := coverage }, true)
      else
        ({ s with last_count := count }, false)
    else
      ({ s with last_count := count }, false)
  else
    ({ s with last_count := count }, false)

/-- The scan loop of `analyze_histogram` over the parsed histogram lines
(source lines 137-155), stopping early when an iteration breaks. -/
def scanHisto : List (Int × Int) → ScanState → ScanState
  | [], s => s
  | (c, n) :: t, s =>
    match scanStep s c n with
    | (s1, true) => s1
    | (s1, false) => scanHisto t s1

/-- The pure core of `analyze_histogram` (source lines 135-158 and 170): scan
the histogram, then raise `HistogramError histo_cmd` when
`not min_coverage or not max_coverage`, otherwise return the pair.
`histo_cmd` stands for the already-formatted histogram-generation command. -/
def analyze_histogram (histo_cmd : String) (h : List (Int × Int)) :
    Except HistogramError (Int × Int) :=
  let s := scanHisto h initScanState
  if s.min_coverage = 0 ∨ s.max_coverage = 0 then
    .error { message := histogramErrorMessage histo_cmd }
  else
    .ok (s.min_coverage, s.max_coverage)

/-- Observable effects of one `analyze_histogram` call: its result, whether
the low-confidence warning was printed, whether the temporary histogram file
was removed, and which files the call created. -/
structure AnalyzeEffects where
  result : Except HistogramError (Int × Int)
  warned : Bool
  temp_file_removed : Bool
  files_created : List String

/-- Full translation of `analyze_histogram` including its file effects
(source lines 124-170): the external `kmc_tools transform ... histogram` call
creates the temporary histogram file; on the error path the exception
propagates before the cleanup code runs; on success the warning is printed
and the file kept when `max_coverage - min_coverage < 5`, otherwise the file
is removed (`os.remove`) and no warning is printed. -/
def analyze_histogram_effects (histo_cmd temp_histogram_path : String)
    (h : List (Int × Int)) : AnalyzeEffects :=
  let s := scanHisto h initScanState
  if s.min_coverage = 0 ∨ s.max_coverage = 0 then
    { result := .error { message := histogramErrorMessage histo_cmd },
      warned := false, temp_file_removed := false,
      files_created := [temp_histogram_path] }
  else if s.max_coverage - s.min_coverage < 5 then
    { result := .ok (s.min_coverage, s.max_coverage),
      warned := true, temp_file_removed := false,
      files_created := [temp_histogram_path] }
  else
    { result := .ok (s.min_coverage, s.max_coverage),
      warned := false, temp_file_removed := true,
      files_created := [temp_histogram_path] }

/-- State of the spec-side scan with explicit found/not-found flags:
`found_min` holds `(min_coverage, min_coverage_count)` once the first phase
has completed, `found_max` the final coverage once the second has. -/
structure ScanStateO where
  found_min : Option (Int × Int)
  found_max : Option Int
  last_count : Int
deriving Repr, DecidableEq

/-- Initial spec-side scan state: nothing found, `last_count = -1`. -/
def initScanStateO : ScanStateO :=
  { found_min := none, found_max := none, last_count := -1 }

/-- One iteration of the scan as the claim describes it (spec 4.1, steps 1-4),
with explicit flags instead of falsy sentinels: at the first non-skipped entry
whose count exceeds the previously recorded count, record
`(coverage - 1, last_count)`; afterwards, at the first non-skipped entry whose
count is below the recorded trough frequency, record the coverage and break. -/
def claimedStep (s : ScanStateO) (coverage count : Int) : ScanStateO × Bool :=
  if coverage ≠ 2 then
    match s.found_min with
    | none =>
      if count > s.last_count then
        ({ s with found_min := some (coverage - 1, s.last_count),
                  last_count := count }, false)
      else
        ({ s with last_count := count }, false)
    | some mt =>
      match s.found_max with
      | none =>
        if count < mt.2 then
          ({ s with found_max := some coverage }, true)
        else
          ({ s with last_count := count }, false)
      | some _ => ({ s with last_count := count }, false)
  else
    ({ s with last_count := count }, false)

/-- The scan loop under the claim's reading. -/
def claimedLoop : List (Int × Int) → ScanStateO → ScanStateO
  | [], s => s
  | (c, n) :: t, s =>
    match claimedStep s c n with
    | (s1, true) => s1
    | (s1, false) => claimedLoop t s1

/-- `analyze_histogram` exactly as the claim words it: return the recorded
pair when both phases completed, otherwise raise `HistogramError`. -/
def analyze_histogram_claimed (histo_cmd : String) (h : List (Int × Int)) :
    Except HistogramError (Int × Int) :=
  let s := claimedLoop h initScanStateO
  match s.found_min, s.found_max with
  | some mt, some x => .ok (mt.1, x)
  | _, _ => .error { message := histogramErrorMessage histo_cmd }

/-- One iteration of the scan as the claim must be amended: identical to
`claimedStep` except that a first-phase detection whose computed
`min_coverage` would be `coverage - 1 = 0` (i.e. at coverage `1`) is
discarded, because the script's falsy-zero sentinel makes such an assignment
indistinguishable from "not yet found". -/
def amendedStep (s : ScanStateO) (coverage count : Int) : ScanStateO × Bool :=
  if coverage ≠ 2 then
    match s.found_min with
    | none =>
      if count > s.last_count ∧ coverage - 1 ≠ 0 then
        ({ s with found_min := some (coverage - 1, s.last_count),
                  last_count := count }, false)
      else
        ({ s with last_count := count }, false)
    | some mt =>
      match s.found_max with
      | none =>
        if count < mt.2 then
          ({ s with found_max := some coverage }, true)
        else
          ({ s with last_count := count }, false)
      | some _ => ({ s with last_count := count }, false)
  else
    ({ s with last_count := count }, false)

/-- The scan loop under the amended reading. -/
def amendedLoop : List (Int × Int) → ScanStateO → ScanStateO
  | [], s => s
  | (c, n) :: t, s =>
    match amendedStep s c n with
    | (s1, true) => s1
    | (s1, false) => amendedLoop t s1

/-- `analyze_histogram` under the amended reading. -/
def analyze_histogram_amended (histo_cmd : String) (h : List (Int × Int)) :
    Except HistogramError (Int × Int) :=
  let s := amendedLoop h initScanStateO
  match s.found_min, s.found_max with
  | some mt, some x => .ok (mt.1, x)
  | _, _ => .error { message := histogramErrorMessage histo_cmd }

/-- Correspondence between the script's first-phase variables and the
spec-side flag: while nothing is found the script's `min_coverage` is the
falsy `0` (its `min_coverage_count` is then meaningless and unconstrained);
once found, `min_coverage` is the recorded non-zero value and
`min_coverage_count` the recorded trough frequency. -/
def ScanRelMin (minc mcc : Int) (fm : Option (Int × Int)) : Prop :=
  match fm with
  | none => minc = 0
  | some mt => minc = mt.1 ∧ mt.1 ≠ 0 ∧ mcc = mt.2

/-- Correspondence for the second phase: `max_coverage` is the falsy `0`
until found, afterwards the recorded non-zero coverage. -/
def ScanRelMax (maxc : Int) (fx : Option Int) : Prop :=
  match fx with
  | none => maxc = 0
  | some x => maxc = x ∧ x ≠ 0

/-- Full correspondence between a script scan state and a spec-side state. -/
def ScanRel (s : ScanState) (so : ScanStateO) : Prop :=
  s.last_count = so.last_count
    ∧ ScanRelMin s.min_coverage s.min_coverage_count so.found_min
    ∧ ScanRelMax s.max_coverage so.found_max

/-- Outcome of launching the external `kmc` process: it either starts and
exits with some return code, or the binary cannot be located/executed
(Python raises `FileNotFoundError`). -/
inductive KmcOutcome where
  | exited (returncode : Int)
  | binaryNotFound
deriving Repr, DecidableEq

/-- The Python exceptions that the modelled fragments can propagate. -/
inductive PyExc where
  | calledProcessError (returncode : Int)
  | fileNotFoundError
  | systemExit (code : Nat)
  | attributeError (attr : String)
deriving Repr, DecidableEq

/-- Control flow of a Python fragment: a normal value or a propagating
exception. -/
inductive PyFlow (α : Type) where
  | value (a : α)
  | exc (e : PyExc)
deriving Repr, DecidableEq

/-- `subprocess.check_call` on the kmc command: returns normally on a zero
exit status, raises `CalledProcessError` on any non-zero exit status, and
raises `FileNotFoundError` when the binary cannot be executed. -/
def check_call (outcome : KmcOutcome) : PyFlow Unit :=
  match outcome with
  | .exited returncode =>
    if returncode = 0 then .value () else .exc (.calledProcessError returncode)
  | .binaryNotFound => .exc .fileNotFoundError

/-- The diagnostic `run_kmc` prints to stderr when the kmc binary cannot be
executed (source lines 97-101). -/
def kmcNotFoundMsg : String :=
  "Cannot execute kmc. Make sure kmc is installed and either in\n"
    ++ "your PATH or specified by the --path-to-kmc option."

/-- `os.remove`: the path no longer exists afterwards (the file system is
modelled as the list of existing paths). -/
def os_remove (files : List String) (path : String) : List String :=
  files.filter (fun q => !(q == path))

/-- Observable outcome of one `run_kmc` call: the file system after the call,
the stderr lines it printed, and how control left the function (normal
return, propagating exception, or interpreter exit). -/
structure RunKmcResult where
  files : List String
  stderr : List String
  flow : PyFlow Unit
deriving Repr, DecidableEq

/-- Translation of `run_kmc` (source lines 64-105), abstracting the external
process into its `KmcOutcome`: `open(paths_list_file_path, "w")` creates the
scratch path-list file; `check_call(kmc_cmd)` runs inside
`try/except FileNotFoundError/finally`; the except-clause prints the
diagnostic and calls `sys.exit(1)` (which raises `SystemExit`); the finally
clause removes the scratch file on every control path, including both
exceptional ones. -/
def run_kmc (outcome : KmcOutcome) (paths_list_file_path : String)
    (files0 : List String) : RunKmcResult :=
  let files1 := paths_list_file_path :: files0
  let body := check_call outcome
  let handled : List String × PyFlow Unit :=
    match body with
    | .exc .fileNotFoundError => ([kmcNotFoundMsg], .exc (.systemExit 1))
    | r => ([], r)
  { files := os_remove files1 paths_list_file_path,
    stderr := handled.1,
    flow := handled.2 }

/-- The line-counting loop of `run_kmc_dump` (source lines 225-228):
`num_lines = 0; for line in f: num_lines += 1`. -/
def count_lines : List String → Nat → Nat
  | [], num_lines => num_lines
  | _ :: t, num_lines => count_lines t (num_lines + 1)

/-- Translation of the post-dump part of `run_kmc_dump` (source lines
225-229): given the lines the external dump wrote to the output file, count
and return them. -/
def run_kmc_dump (out_file_lines : List String) : Nat :=
  count_lines out_file_lines 0

/-- Modelled from the spec: the external `kmc_dump` utility (an out-of-scope
collaborator, not part of this repository's sources) writes one output line
per k-mer of the database whose occurrence count lies within the inclusive
`[min_count, max_count]` bounds. -/
def kmc_dump_lines (db : List (String × Nat)) (min_count max_count : Nat) :
    List String :=
  (db.filter (fun kv => decide (min_count ≤ kv.2) && decide (kv.2 ≤ max_count))).map
    (fun kv => kv.1 ++ "\t" ++ toString kv.2)

/-- The integer-valued attributes `parse_args` defines on the argparse
namespace (source lines 25-61): argparse derives each attribute name from the
first long option string, so the option `--count_lower` (short `-l`) is stored as `count_lower`
and `--count_upper` (short `-u`) as `count_upper`; no attribute named `l` or `u`
exists.  Reading an attribute that was never defined yields `none`
(Python raises `AttributeError`). -/
def parse_args_int_attrs (kmer_size count_lower count_upper threads : Int) :
    String → Option Int :=
  fun name =>
    if name = "kmer_size" then some kmer_size
    else if name = "count_lower" then some count_lower
    else if name = "count_upper" then some count_upper
    else if name = "threads" then some threads
    else none

/-- The per-library bound selection of `main` (source lines 253-261):
`if(args.l == args.u == 0)` evaluates `args.l` first, then `args.u` (a missing
attribute raises `AttributeError` at that point); when both equal `0` the
bounds come from `analyze_histogram` (its result is passed in as `analyzed`),
otherwise `args.l`/`args.u` are used verbatim. -/
def select_counts (attrs : String → Option Int) (analyzed : Int × Int) :
    Except PyExc (Int × Int) :=
  match attrs "l" with
  | none => .error (.attributeError "l")
  | some l =>
    match attrs "u" with
    | none => .error (.attributeError "u")
    | some u =>
      if l = u ∧ u = 0 then .ok analyzed else .ok (l, u)

theorem count_lines_eq (l : List String) : ∀ n : Nat, count_lines l n = l.length + n := by
  induction l with
  | nil => intro n; simp [count_lines]
  | cons a t ih => intro n; simp [count_lines, ih]; omega

/-- C9: `run_kmc_dump` returns exactly the number of lines of the output
file; on a database of exactly 7 k-mers all of count 3, dumping with bounds
`min_count = 3, max_count = 3` writes 7 lines and `run_kmc_dump` returns 7. -/
theorem C9_dump_returns_line_count :
    (∀ out_file_lines : List String, run_kmc_dump out_file_lines = out_file_lines.length)
    ∧ (kmc_dump_lines
        [("AAG", 3), ("ACT", 3), ("CCA", 3), ("CGT", 3), ("GAT", 3), ("GGC", 3), ("TTA", 3)]
        3 3).length = 7
    ∧ run_kmc_dump (kmc_dump_lines
        [("AAG", 3), ("ACT", 3), ("CCA", 3), ("CGT", 3), ("GAT", 3), ("GGC", 3), ("TTA", 3)]
        3 3) = 7 := by
  refine ⟨fun ls => ?_, by decide, by decide⟩
  simp [run_kmc_dump, count_lines_eq]

/-- C7: on every control path of `run_kmc` (successful external run, non-zero
exit of the external counter, and binary-not-found), the scratch path-list
file does not exist once the call completes. -/
theorem C7_scratch_file_removed (outcome : KmcOutcome)
    (paths_list_file_path : String) (files0 : List String) :
    paths_list_file_path ∉ (run_kmc outcome paths_list_file_path files0).files := by
  simp [run_kmc, os_remove, List.mem_filter]

/-- C8: when the kmc binary cannot be executed, `run_kmc` prints a diagnostic
naming the expected binary to stderr and exits the process with status 1; any
non-zero exit of the external process propagates as `CalledProcessError`. -/
theorem C8_binary_not_found_exit (paths_list_file_path : String)
    (files0 : List String) (returncode : Int) (hc : returncode ≠ 0) :
    (run_kmc .binaryNotFound paths_list_file_path files0).flow = .exc (.systemExit 1)
    ∧ (run_kmc .binaryNotFound paths_list_file_path files0).stderr = [kmcNotFoundMsg]
    ∧ (kmcNotFoundMsg.data.drop 15).take 3 = "kmc".data
    ∧ (run_kmc (.exited returncode) paths_list_file_path files0).flow
        = .exc (.calledProcessError returncode) := by
  refine ⟨rfl, rfl, by decide, ?_⟩
  simp [run_kmc, check_call, hc]

theorem C8_witness :
    (2 : Int) ≠ 0
    ∧ ((run_kmc .binaryNotFound "9917" []).flow = .exc (.systemExit 1)
      ∧ (run_kmc .binaryNotFound "9917" []).stderr = [kmcNotFoundMsg]
      ∧ (kmcNotFoundMsg.data.drop 15).take 3 = "kmc".data
      ∧ (run_kmc (.exited 2) "9917" []).flow = .exc (.calledProcessError 2)) :=
  ⟨by decide, C8_binary_not_found_exit "9917" [] 2 (by decide)⟩

/-- C2: the intended bound selection never happens: `main` reads `args.l` and
`args.u`, but `parse_args` stores the two options under `count_lower` and
`count_upper`, so for every supplied pair of bounds (defaults included) the
selection raises `AttributeError` on attribute `l` instead of either invoking
the analyzer or using the supplied values. -/
theorem C2_bound_selection_attribute_error
    (kmer_size count_lower count_upper threads : Int) (analyzed : Int × Int) :
    select_counts (parse_args_int_attrs kmer_size count_lower count_upper threads) analyzed
      = .error (.attributeError "l") := rfl

/-- C5: when `analyze_histogram` returns a pair, neither component is `0`:
zero is the falsy not-yet-found sentinel, and the final check raises
`HistogramError` whenever either variable is still falsy. -/
theorem C5_returned_bounds_nonzero (histo_cmd : String) (h : List (Int × Int))
    (mn mx : Int) (hok : analyze_histogram histo_cmd h = .ok (mn, mx)) :
    mn ≠ 0 ∧ mx ≠ 0 := by
  simp only [analyze_histogram] at hok
  split at hok
  · exact absurd hok (by simp)
  · rename_i hcond
    push_neg at hcond
    injection hok with hpair
    injection hpair with e1 e2
    subst e1; subst e2
    exact hcond

theorem C5_witness :
    analyze_histogram "histocmd" [(1, 10), (3, 5), (4, 20), (5, 1)] = .ok (3, 5)
    ∧ (3 : Int) ≠ 0 ∧ (5 : Int) ≠ 0 :=
  ⟨rfl, C5_returned_bounds_nonzero "histocmd" [(1, 10), (3, 5), (4, 20), (5, 1)] 3 5 rfl⟩

/-- C6: when `analyze_histogram` returns a range, the low-confidence warning
is printed exactly when `max_coverage - min_coverage < 5`, the temporary
histogram file is removed exactly when `max_coverage - min_coverage ≥ 5`
(and retained in the narrow case), and the set of files the call creates is
the single temporary histogram file in both cases. -/
theorem C6_narrow_range_effects (histo_cmd temp_path : String)
    (h : List (Int × Int)) (mn mx : Int)
    (hok : (analyze_histogram_effects histo_cmd temp_path h).result = .ok (mn, mx)) :
    ((analyze_histogram_effects histo_cmd temp_path h).warned = true ↔ mx - mn < 5)
    ∧ ((analyze_histogram_effects histo_cmd temp_path h).temp_file_removed = true ↔ 5 ≤ mx - mn)
    ∧ (analyze_histogram_effects histo_cmd temp_path h).files_created = [temp_path] := by
  simp only [analyze_histogram_effects] at hok ⊢
  by_cases hz : (scanHisto h initScanState).min_coverage = 0
      ∨ (scanHisto h initScanState).max_coverage = 0
  · rw [if_pos hz] at hok
    exact absurd hok (by simp)
  · rw [if_neg hz] at hok ⊢
    by_cases hn : (scanHisto h initScanState).max_coverage
        - (scanHisto h initScanState).min_coverage < 5
    · rw [if_pos hn] at hok ⊢
      injection hok with hpair
      injection hpair with e1 e2
      subst e1; subst e2
      refine ⟨by simpa using hn, ?_, rfl⟩
      simp only [Bool.false_eq_true, false_iff]
      omega
    · rw [if_neg hn] at hok ⊢
      injection hok with hpair
      injection hpair with e1 e2
      subst e1; subst e2
      refine ⟨by simpa using hn, ?_, rfl⟩
      simp only [true_iff]
      omega

theorem C6_witness :
    (analyze_histogram_effects "histocmd" "tmpfile" [(1, 10), (3, 5), (4, 20), (5, 1)]).result
      = .ok (3, 5)
    ∧ (((analyze_histogram_effects "histocmd" "tmpfile" [(1, 10), (3, 5), (4, 20), (5, 1)]).warned
          = true ↔ (5 : Int) - 3 < 5)
      ∧ ((analyze_histogram_effects "histocmd" "tmpfile"
            [(1, 10), (3, 5), (4, 20), (5, 1)]).temp_file_removed = true ↔ 5 ≤ (5 : Int) - 3)
      ∧ (analyze_histogram_effects "histocmd" "tmpfile"
            [(1, 10), (3, 5), (4, 20), (5, 1)]).files_created = ["tmpfile"]) :=
  ⟨rfl, C6_narrow_range_effects "histocmd" "tmpfile" [(1, 10), (3, 5), (4, 20), (5, 1)] 3 5 rfl⟩

/-- C1 counterexample: on the strictly-increasing histogram
`[(1,5), (3,10), (4,1)]` the claim's reading sets `min_coverage` at the very
first entry (its count `5` exceeds the seeded `last_count = -1`), recording
`min_coverage = 0` and trough `-1`, after which no count drops below `-1`, so
the claimed algorithm fails; the script instead discards that falsy-zero
assignment, detects the upturn at coverage `4`, and returns `(2, 4)`. -/
theorem C1_counterexample :
    ([((1 : Int), (5 : Int)), (3, 10), (4, 1)].Pairwise fun a b => a.1 < b.1)
    ∧ (∀ p ∈ [((1 : Int), (5 : Int)), (3, 10), (4, 1)], 0 ≤ p.1 ∧ 0 ≤ p.2)
    ∧ analyze_histogram "histocmd" [(1, 5), (3, 10), (4, 1)] = .ok (2, 4)
    ∧ analyze_histogram_claimed "histocmd" [(1, 5), (3, 10), (4, 1)]
        = .error { message := histogramErrorMessage "histocmd" } :=
  ⟨by decide, by decide, rfl, rfl⟩

/-- C3 counterexample: the two histograms below are identical except for the
count paired with coverage `2`, yet the analyzer raises on the first and
returns `(3, 5)` on the second — the coverage-2 entry still updates
`last_count`, which the next iteration's upturn test reads. -/
theorem C3_counterexample :
    [((1 : Int), (10 : Int)), (2, 1), (3, 5), (4, 20), (5, 1)].map Prod.fst
      = [((1 : Int), (10 : Int)), (2, 100), (3, 5), (4, 20), (5, 1)].map Prod.fst
    ∧ (∀ p ∈ [((1 : Int), (10 : Int)), (2, 1), (3, 5), (4, 20), (5, 1)].zip
          [((1 : Int), (10 : Int)), (2, 100), (3, 5), (4, 20), (5, 1)],
        p.1.1 ≠ 2 → p.1 = p.2)
    ∧ analyze_histogram "histocmd" [(1, 10), (2, 1), (3, 5), (4, 20), (5, 1)]
        = .error { message := histogramErrorMessage "histocmd" }
    ∧ analyze_histogram "histocmd" [(1, 10), (2, 100), (3, 5), (4, 20), (5, 1)]
        = .ok (3, 5) :=
  ⟨by decide, by decide, rfl, rfl⟩

/-- C3 amended: a coverage-2 entry never itself triggers either phase
transition — processing it leaves `min_coverage`, `max_coverage` and the
trough `min_coverage_count` unchanged and never breaks, updating only
`last_count`; through that recorded `last_count` the analyzer's result may
still depend on the count at coverage 2. -/
theorem C3_coverage_two_no_transition (s : ScanState) (count : Int) :
    scanStep s 2 count = ({ s with last_count := count }, false) := by
  simp [scanStep]

theorem scanHisto_cons_nobreak {s s1 : ScanState} {c n : Int} {t : List (Int × Int)}
    (hstep : scanStep s c n = (s1, false)) :
    scanHisto ((c, n) :: t) s = scanHisto t s1 := by
  simp only [scanHisto, hstep]

theorem scanHisto_cons_break {s s1 : ScanState} {c n : Int} {t : List (Int × Int)}
    (hstep : scanStep s c n = (s1, true)) :
    scanHisto ((c, n) :: t) s = s1 := by
  simp only [scanHisto, hstep]

theorem amendedLoop_cons_nobreak {s s1 : ScanStateO} {c n : Int} {t : List (Int × Int)}
    (hstep : amendedStep s c n = (s1, false)) :
    amendedLoop ((c, n) :: t) s = amendedLoop t s1 := by
  simp only [amendedLoop, hstep]

theorem amendedLoop_cons_break {s s1 : ScanStateO} {c n : Int} {t : List (Int × Int)}
    (hstep : amendedStep s c n = (s1, true)) :
    amendedLoop ((c, n) :: t) s = s1 := by
  simp only [amendedLoop, hstep]

theorem scan_rel_preserved (l : List (Int × Int)) :
    ∀ (s : ScanState) (so : ScanStateO),
      ScanRel s so →
      (∀ p ∈ l, 0 ≤ p.1) →
      (l.Pairwise fun a b => a.1 < b.1) →
      (so.found_min ≠ none → ∀ p ∈ l, 1 ≤ p.1) →
      ScanRel (scanHisto l s) (amendedLoop l so) := by
  induction l with
  | nil => intro s so hrel _ _ _; exact hrel
  | cons hd tl ih =>
    obtain ⟨c, n⟩ := hd
    intro s so hrel hcov hinc hfnd
    obtain ⟨hlast, hmin, hmax⟩ := hrel
    rw [List.pairwise_cons] at hinc
    obtain ⟨hlt, htl⟩ := hinc
    have hc0 : 0 ≤ c := hcov _ (List.mem_cons_self _ _)
    have hcovt : ∀ p ∈ tl, 0 ≤ p.1 := fun p hp => hcov p (List.mem_cons_of_mem _ hp)
    by_cases hc2 : c = 2
    · subst hc2
      have hstep1 : scanStep s 2 n = ({ s with last_count := n }, false) := by
        simp [scanStep]
      have hstep2 : amendedStep so 2 n = ({ so with last_count := n }, false) := by
        simp [amendedStep]
      rw [scanHisto_cons_nobreak hstep1, amendedLoop_cons_nobreak hstep2]
      exact ih _ _ ⟨rfl, hmin, hmax⟩ hcovt htl
        (fun hf p hp => hfnd hf p (List.mem_cons_of_mem _ hp))
    · cases hfm : so.found_min with
      | none =>
        have hmin0 : s.min_coverage = 0 := by
          rw [hfm] at hmin; exact hmin
        by_cases hgt : n > s.last_count
        · have hgt2 : n > so.last_count := hlast ▸ hgt
          by_cases hc1 : c - 1 = 0
          · have hstep1 : scanStep s c n
                = ({ s with min_coverage := c - 1,
                            min_coverage_count := s.last_count,
                            last_count := n }, false) := by
              simp [scanStep, hc2, hmin0, hgt]
            have hstep2 : amendedStep so c n = ({ so with last_count := n }, false) := by
              simp [amendedStep, hc2, hfm, hc1]
            rw [scanHisto_cons_nobreak hstep1, amendedLoop_cons_nobreak hstep2]
            refine ih _ _ ⟨rfl, ?_, hmax⟩ hcovt htl ?_
            · show ScanRelMin (c - 1) s.last_count so.found_min
              rw [hfm]; exact hc1
            · intro hf p hp
              rw [show ({ so with last_count := n } : ScanStateO).found_min = so.found_min
                    from rfl, hfm] at hf
              exact absurd rfl hf
          · have hstep1 : scanStep s c n
                = ({ s with min_coverage := c - 1,
                            min_coverage_count := s.last_count,
                            last_count := n }, false) := by
              simp [scanStep, hc2, hmin0, hgt]
            have hstep2 : amendedStep so c n
                = ({ so with found_min := some (c - 1, so.last_count),
                             last_count := n }, false) := by
              simp [amendedStep, hc2, hfm, hgt2, hc1]
            rw [scanHisto_cons_nobreak hstep1, amendedLoop_cons_nobreak hstep2]
            refine ih _ _ ⟨rfl, ?_, hmax⟩ hcovt htl ?_
            · exact ⟨rfl, hc1, hlast⟩
            · intro _ p hp
              have := hlt p hp
              omega
        · have hgt2 : ¬ n > so.last_count := hlast ▸ hgt
          have hstep1 : scanStep s c n = ({ s with last_count := n }, false) := by
            simp [scanStep, hc2, hmin0, hgt]
          have hstep2 : amendedStep so c n = ({ so with last_count := n }, false) := by
            simp [amendedStep, hc2, hfm, hgt2]
          rw [scanHisto_cons_nobreak hstep1, amendedLoop_cons_nobreak hstep2]
          refine ih _ _ ⟨rfl, ?_, hmax⟩ hcovt htl ?_
          · show ScanRelMin s.min_coverage s.min_coverage_count so.found_min
            rw [hfm]; exact hmin0
          · intro hf p hp
            rw [show ({ so with last_count := n } : ScanStateO).found_min = so.found_min
                  from rfl, hfm] at hf
            exact absurd rfl hf
      | some mt =>
        rw [hfm] at hmin
        obtain ⟨hm1, hm2, hm3⟩ := hmin
        have hminne : ¬ s.min_coverage = 0 := by rw [hm1]; exact hm2
        have hfnd2 : ∀ p ∈ (c, n) :: tl, 1 ≤ p.1 := hfnd (by rw [hfm]; exact fun h => nomatch h)
        have hfndt : ∀ p ∈ tl, 1 ≤ p.1 := fun p hp => hfnd2 p (List.mem_cons_of_mem _ hp)
        cases hfx : so.found_max with
        | none =>
          have hmax0 : s.max_coverage = 0 := by rw [hfx] at hmax; exact hmax
          by_cases hdip : n < s.min_coverage_count
          · have hdip2 : n < mt.2 := hm3 ▸ hdip
            have hstep1 : scanStep s c n = ({ s with max_coverage := c }, true) := by
              simp [scanStep, hc2, hminne, hmax0, hdip]
            have hstep2 : amendedStep so c n = ({ so with found_max := some c }, true) := by
              simp [amendedStep, hc2, hfm, hfx, hdip2]
            rw [scanHisto_cons_break hstep1, amendedLoop_cons_break hstep2]
            refine ⟨hlast, ?_, ?_⟩
            · show ScanRelMin s.min_coverage s.min_coverage_count so.found_min
              rw [hfm]; exact ⟨hm1, hm2, hm3⟩
            · show ScanRelMax c (some c)
              refine ⟨rfl, ?_⟩
              have := hfnd2 _ (List.mem_cons_self _ _)
              omega
          · have hdip2 : ¬ n < mt.2 := hm3 ▸ hdip
            have hstep1 : scanStep s c n = ({ s with last_count := n }, false) := by
              simp [scanStep, hc2, hminne, hmax0, hdip]
            have hstep2 : amendedStep so c n = ({ so with last_count := n }, false) := by
              simp [amendedStep, hc2, hfm, hfx, hdip2]
            rw [scanHisto_cons_nobreak hstep1, amendedLoop_cons_nobreak hstep2]
            refine ih _ _ ⟨rfl, ?_, ?_⟩ hcovt htl (fun _ => hfndt)
            · show ScanRelMin s.min_coverage s.min_coverage_count so.found_min
              rw [hfm]; exact ⟨hm1, hm2, hm3⟩
            · show ScanRelMax s.max_coverage so.found_max
              rw [hfx]; exact hmax0
        | some x =>
          rw [hfx] at hmax
          obtain ⟨hx1, hx2⟩ := hmax
          have hmaxne : ¬ s.max_coverage = 0 := by rw [hx1]; exact hx2
          have hstep1 : scanStep s c n = ({ s with last_count := n }, false) := by
            simp [scanStep, hc2, hminne, hmaxne]
          have hstep2 : amendedStep so c n = ({ so with last_count := n }, false) := by
            simp [amendedStep, hc2, hfm, hfx]
          rw [scanHisto_cons_nobreak hstep1, amendedLoop_cons_nobreak hstep2]
          refine ih _ _ ⟨rfl, ?_, ?_⟩ hcovt htl (fun _ => hfndt)
          · show ScanRelMin s.min_coverage s.min_coverage_count so.found_min
            rw [hfm]; exact ⟨hm1, hm2, hm3⟩
          · show ScanRelMax s.max_coverage so.found_max
            rw [hfx]; exact ⟨hx1, hx2⟩

theorem analyze_eq_amended (histo_cmd : String) (h : List (Int × Int))
    (hcov : ∀ p ∈ h, 0 ≤ p.1) (hinc : h.Pairwise fun a b => a.1 < b.1) :
    analyze_histogram histo_cmd h = analyze_histogram_amended histo_cmd h := by
  have hrel := scan_rel_preserved h initScanState initScanStateO
    ⟨rfl, rfl, rfl⟩ hcov hinc (fun hf => absurd rfl hf)
  obtain ⟨hlast, hmin, hmax⟩ := hrel
  simp only [analyze_histogram, analyze_histogram_amended]
  cases hfm : (amendedLoop h initScanStateO).found_min with
  | none =>
    rw [hfm] at hmin
    have hmin0 : (scanHisto h initScanState).min_coverage = 0 := hmin
    rw [if_pos (Or.inl hmin0)]
  | some mt =>
    rw [hfm] at hmin
    obtain ⟨hm1, hm2, hm3⟩ := (hmin :
      (scanHisto h initScanState).min_coverage = mt.1 ∧ mt.1 ≠ 0
        ∧ (scanHisto h initScanState).min_coverage_count = mt.2)
    cases hfx : (amendedLoop h initScanStateO).found_max with
    | none =>
      rw [hfx] at hmax
      have hmax0 : (scanHisto h initScanState).max_coverage = 0 := hmax
      rw [if_pos (Or.inr hmax0)]
    | some x =>
      rw [hfx] at hmax
      obtain ⟨hx1, hx2⟩ := (hmax :
        (scanHisto h initScanState).max_coverage = x ∧ x ≠ 0)
      rw [if_neg (by
        push_neg
        exact ⟨by rw [hm1]; exact hm2, by rw [hx1]; exact hx2⟩)]
      simp [hfm, hfx, hm1, hx1]

/-- C1 amended: for every histogram with non-negative coverages visited in
strictly increasing order, `analyze_histogram` behaves as the claim describes
except that a first-phase detection at coverage `1` is discarded: its computed
`min_coverage = 0` is the falsy sentinel, so the scan keeps looking for a
later entry whose count exceeds the previously recorded count; with that one
amendment the code coincides with the claimed algorithm. -/
theorem C1_scan_matches_amended_claim (histo_cmd : String) (h : List (Int × Int))
    (hcov : ∀ p ∈ h, 0 ≤ p.1) (hinc : h.Pairwise fun a b => a.1 < b.1) :
    analyze_histogram histo_cmd h = analyze_histogram_amended histo_cmd h :=
  analyze_eq_amended histo_cmd h hcov hinc

theorem C1_witness :
    analyze_histogram "histocmd" [(1, 10), (3, 5), (4, 20), (5, 1)]
      = analyze_histogram_amended "histocmd" [(1, 10), (3, 5), (4, 20), (5, 1)] :=
  C1_scan_matches_amended_claim "histocmd" [(1, 10), (3, 5), (4, 20), (5, 1)]
    (by decide) (by decide)

/-- C4: for histograms with non-negative coverages in strictly increasing
order, `analyze_histogram` raises `HistogramError` — whose message carries the
histogram-generation command — exactly when the scan completes without both
phase transitions (no upturn recorded, or no subsequent dip below the trough
frequency), and in every other case it returns a pair. -/
theorem C4_error_iff_phase_missing (histo_cmd : String) (h : List (Int × Int))
    (hcov : ∀ p ∈ h, 0 ≤ p.1) (hinc : h.Pairwise fun a b => a.1 < b.1) :
    (analyze_histogram histo_cmd h
        = .error { message := histogramErrorMessage histo_cmd }
      ↔ ((amendedLoop h initScanStateO).found_min = none
          ∨ (amendedLoop h initScanStateO).found_max = none))
    ∧ (((amendedLoop h initScanStateO).found_min ≠ none
          ∧ (amendedLoop h initScanStateO).found_max ≠ none)
        → ∃ mn mx, analyze_histogram histo_cmd h = .ok (mn, mx)) := by
  rw [analyze_eq_amended histo_cmd h hcov hinc]
  simp only [analyze_histogram_amended]
  cases hfm : (amendedLoop h initScanStateO).found_min with
  | none => simp [hfm]
  | some mt =>
    cases hfx : (amendedLoop h initScanStateO).found_max with
    | none => simp [hfm, hfx]
    | some x => simp [hfm, hfx]

theorem C4_witness :
    ((analyze_histogram "histocmd" [(1, 10), (3, 5), (4, 20), (5, 1)]
        = .error { message := histogramErrorMessage "histocmd" }
      ↔ ((amendedLoop [(1, 10), (3, 5), (4, 20), (5, 1)] initScanStateO).found_min = none
          ∨ (amendedLoop [(1, 10), (3, 5), (4, 20), (5, 1)] initScanStateO).found_max = none))
    ∧ (((amendedLoop [(1, 10), (3, 5), (4, 20), (5, 1)] initScanStateO).found_min ≠ none
          ∧ (amendedLoop [(1, 10), (3, 5), (4, 20), (5, 1)] initScanStateO).found_max ≠ none)
        → ∃ mn mx, analyze_histogram "histocmd" [(1, 10), (3, 5), (4, 20), (5, 1)]
            = .ok (mn, mx))) :=
  C4_error_iff_phase_missing "histocmd" [(1, 10), (3, 5), (4, 20), (5, 1)]
    (by decide) (by decide)

theorem scanHisto_inv (l : List (Int × Int)) :
    ∀ s : ScanState,
      (∀ p ∈ l, 0 ≤ p.1) →
      (∀ p ∈ l, 0 ≤ p.2) →
      (l.Pairwise fun a b => a.1 < b.1) →
      (s.min_coverage = 0 ∨ s.min_coverage = -1 ∨ 2 ≤ s.min_coverage) →
      (s.min_coverage = -1 → s.min_coverage_count = -1) →
      (s.max_coverage = 0 ∨ (2 ≤ s.min_coverage ∧ s.min_coverage < s.max_coverage)) →
      (s.min_coverage ≠ 0 → ∀ p ∈ l, s.min_coverage < p.1) →
      (s.last_count = -1 ∨ (0 ≤ s.last_count ∧ ∀ p ∈ l, 1 ≤ p.1)) →
      ((scanHisto l s).min_coverage = 0 ∨ (scanHisto l s).min_coverage = -1
          ∨ 2 ≤ (scanHisto l s).min_coverage)
        ∧ ((scanHisto l s).min_coverage = -1 → (scanHisto l s).min_coverage_count = -1)
        ∧ ((scanHisto l s).max_coverage = 0
            ∨ (2 ≤ (scanHisto l s).min_coverage
                ∧ (scanHisto l s).min_coverage < (scanHisto l s).max_coverage)) := by
  induction l with
  | nil => intro s _ _ _ hA hB hC _ _; exact ⟨hA, hB, hC⟩
  | cons hd tl ih =>
    obtain ⟨c, n⟩ := hd
    intro s hcov hcnt hinc hA hB hC hD hF
    rw [List.pairwise_cons] at hinc
    obtain ⟨hlt, htl⟩ := hinc
    have hc0 : 0 ≤ c := hcov _ (List.mem_cons_self _ _)
    have hn0 : 0 ≤ n := hcnt _ (List.mem_cons_self _ _)
    have hcovt : ∀ p ∈ tl, 0 ≤ p.1 := fun p hp => hcov p (List.mem_cons_of_mem _ hp)
    have hcntt : ∀ p ∈ tl, 0 ≤ p.2 := fun p hp => hcnt p (List.mem_cons_of_mem _ hp)
    have htl1 : ∀ p ∈ tl, 1 ≤ p.1 := fun p hp => by have := hlt p hp; omega
    by_cases hc2 : c = 2
    · subst hc2
      have hstep : scanStep s 2 n = ({ s with last_count := n }, false) := by
        simp [scanStep]
      rw [scanHisto_cons_nobreak hstep]
      exact ih _ hcovt hcntt htl hA hB hC
        (fun hne p hp => hD hne p (List.mem_cons_of_mem _ hp))
        (Or.inr ⟨hn0, htl1⟩)
    · by_cases hmin0 : s.min_coverage = 0
      · by_cases hgt : n > s.last_count
        · have hstep : scanStep s c n
              = ({ s with min_coverage := c - 1,
                          min_coverage_count := s.last_count,
                          last_count := n }, false) := by
            simp [scanStep, hc2, hmin0, hgt]
          rw [scanHisto_cons_nobreak hstep]
          refine ih _ hcovt hcntt htl ?_ ?_ ?_ ?_ ?_
          · show c - 1 = 0 ∨ c - 1 = -1 ∨ 2 ≤ c - 1
            omega
          · show c - 1 = -1 → s.last_count = -1
            intro hcm1
            rcases hF with hlm1 | ⟨hge, hall⟩
            · exact hlm1
            · have := hall _ (List.mem_cons_self _ _)
              omega
          · show s.max_coverage = 0 ∨ (2 ≤ c - 1 ∧ c - 1 < s.max_coverage)
            rcases hC with hm0 | ⟨h2, _⟩
            · exact Or.inl hm0
            · omega
          · show c - 1 ≠ 0 → ∀ p ∈ tl, c - 1 < p.1
            intro _ p hp
            have := hlt p hp
            omega
          · exact Or.inr ⟨hn0, htl1⟩
        · have hstep : scanStep s c n = ({ s with last_count := n }, false) := by
            simp [scanStep, hc2, hmin0, hgt]
          rw [scanHisto_cons_nobreak hstep]
          exact ih _ hcovt hcntt htl hA hB hC
            (fun hne => absurd hmin0 hne)
            (Or.inr ⟨hn0, htl1⟩)
      · by_cases hmax0 : s.max_coverage = 0
        · by_cases hdip : n < s.min_coverage_count
          · have hstep : scanStep s c n = ({ s with max_coverage := c }, true) := by
              simp [scanStep, hc2, hmin0, hmax0, hdip]
            rw [scanHisto_cons_break hstep]
            refine ⟨hA, hB, Or.inr ?_⟩
            rcases hA with h0 | hm1 | h2
            · exact absurd h0 hmin0
            · have hmcc := hB hm1
              exact absurd hdip (by rw [hmcc]; omega)
            · exact ⟨h2, hD hmin0 _ (List.mem_cons_self _ _)⟩
          · have hstep : scanStep s c n = ({ s with last_count := n }, false) := by
              simp [scanStep, hc2, hmin0, hmax0, hdip]
            rw [scanHisto_cons_nobreak hstep]
            exact ih _ hcovt hcntt htl hA hB hC
              (fun hne p hp => hD hne p (List.mem_cons_of_mem _ hp))
              (Or.inr ⟨hn0, htl1⟩)
        · have hstep : scanStep s c n = ({ s with last_count := n }, false) := by
            simp [scanStep, hc2, hmin0, hmax0]
          rw [scanHisto_cons_nobreak hstep]
          exact ih _ hcovt hcntt htl hA hB hC
            (fun hne p hp => hD hne p (List.mem_cons_of_mem _ hp))
            (Or.inr ⟨hn0, htl1⟩)

/-- C10: for a histogram whose entries have non-negative coverage and count
values and strictly increasing coverages, whenever `analyze_histogram`
returns a pair `(min_coverage, max_coverage)` both components are
non-negative and `min_coverage < max_coverage`. -/
theorem C10_returned_range_ordered (histo_cmd : String) (h : List (Int × Int))
    (mn mx : Int)
    (hcov : ∀ p ∈ h, 0 ≤ p.1) (hcnt : ∀ p ∈ h, 0 ≤ p.2)
    (hinc : h.Pairwise fun a b => a.1 < b.1)
    (hok : analyze_histogram histo_cmd h = .ok (mn, mx)) :
    0 ≤ mn ∧ 0 ≤ mx ∧ mn < mx := by
  have hinv := scanHisto_inv h initScanState hcov hcnt hinc
    (Or.inl rfl) (fun hm => absurd hm (by decide)) (Or.inl rfl)
    (fun hne => absurd rfl hne) (Or.inl rfl)
  obtain ⟨hA, hB, hC⟩ := hinv
  simp only [analyze_histogram] at hok
  split at hok
  · exact absurd hok (by simp)
  · rename_i hcond
    push_neg at hcond
    injection hok with hpair
    injection hpair with e1 e2
    subst e1; subst e2
    rcases hA with h0 | hm1 | h2
    · exact absurd h0 hcond.1
    · rcases hC with hmax0 | ⟨h2, _⟩
      · exact absurd hmax0 hcond.2
      · omega
    · rcases hC with hmax0 | ⟨_, hlt2⟩
      · exact absurd hmax0 hcond.2
      · omega

theorem C10_witness :
    (0 : Int) ≤ 3 ∧ (0 : Int) ≤ 5 ∧ (3 : Int) < 5 :=
  C10_returned_range_ordered "histocmd" [(1, 10), (3, 5), (4, 20), (5, 1)] 3 5
    (by decide) (by decide) (by decide) rfl
